import Mathlib

/-!
Verification of the in-memory locomotive repository and the API-key
authorization gate of `server.js`. The JavaScript classes `Locomotief`,
`LocRepository` and `Auth` are embedded as Lean structures and pure
functions; the mutable `items` array becomes explicit state passing
(each mutating operation returns the operation's result together with
the new repository value). JavaScript numbers holding ids, years, gauges
and speeds are modelled as `Int`; snapshots (`toJSON`) coincide with the
record values themselves in this pure embedding.
-/

/-- The record class `Locomotief` (server.js lines 68-118): id plus seven
data fields, in source order. -/
structure Locomotief where
  id : Int
  serie : String
  type : String
  fabrikant : String
  bouwjaar : Int
  spoorwijdte : Int
  tractie : String
  maxSnelheid : Int
deriving DecidableEq, Inhabited

/-- Creation input for `LocRepository.add` (an id-less `LocomotiefInit`,
server.js lines 26-36): `serie` and `type` are required, the other five
fields optional (`none` models an absent property). -/
structure LocData where
  serie : String
  type : String
  fabrikant : Option String
  bouwjaar : Option Int
  spoorwijdte : Option Int
  tractie : Option String
  maxSnelheid : Option Int
deriving DecidableEq

/-- A patch object (`LocomotiefPatch`, server.js lines 38-49): every field
optional. A JavaScript patch object may also carry an `id` property, so it
is part of the model, but `Locomotief.update` reads only the seven
declared patchable fields and never `id`. -/
structure LocomotiefPatch where
  id : Option Int
  serie : Option String
  type : Option String
  fabrikant : Option String
  bouwjaar : Option Int
  spoorwijdte : Option Int
  tractie : Option String
  maxSnelheid : Option Int
deriving DecidableEq

/-- The `Locomotief` constructor (server.js line 74): destructuring with
defaults `fabrikant = ""`, `bouwjaar = 0`, `spoorwijdte = 1435`,
`tractie = ""`, `maxSnelheid = 0` for absent properties. -/
def Locomotief.create (id : Int) (data : LocData) : Locomotief :=
  { id := id,
    serie := data.serie,
    type := data.type,
    fabrikant := match data.fabrikant with | some v => v | none => "",
    bouwjaar := match data.bouwjaar with | some v => v | none => 0,
    spoorwijdte := match data.spoorwijdte with | some v => v | none => 1435,
    tractie := match data.tractie with | some v => v | none => "",
    maxSnelheid := match data.maxSnelheid with | some v => v | none => 0 }

/-- `Locomotief.prototype.update` (server.js lines 91-100): for each of the
seven patchable fields, `if (patch.f !== undefined) this.f = patch.f`; the
`id` field is never assigned. -/
def Locomotief.update (l : Locomotief) (patch : LocomotiefPatch) : Locomotief :=
  { l with
    serie := match patch.serie with | some v => v | none => l.serie,
    type := match patch.type with | some v => v | none => l.type,
    fabrikant := match patch.fabrikant with | some v => v | none => l.fabrikant,
    bouwjaar := match patch.bouwjaar with | some v => v | none => l.bouwjaar,
    spoorwijdte := match patch.spoorwijdte with | some v => v | none => l.spoorwijdte,
    tractie := match patch.tractie with | some v => v | none => l.tractie,
    maxSnelheid := match patch.maxSnelheid with | some v => v | none => l.maxSnelheid }

/-- The repository state (`LocRepository`, server.js lines 124-189): the
`items` array. -/
structure LocRepository where
  items : List Locomotief
deriving DecidableEq

/-- `LocRepository.prototype.all` (server.js lines 138-140). -/
def LocRepository.all (repo : LocRepository) : List Locomotief :=
  repo.items

/-- `LocRepository.prototype.get` (server.js lines 147-150):
`items.find(x => x.id === Number(id))`, `null` when absent. -/
def LocRepository.get (repo : LocRepository) (id : Int) : Option Locomotief :=
  repo.items.find? (fun x => x.id == id)

/-- The id computation of `LocRepository.prototype.add` (server.js line
159): `items.length ? Math.max(...items.map(x => x.id)) + 1 : 1`. -/
def LocRepository.nextId (repo : LocRepository) : Int :=
  match repo.items with
  | [] => 1
  | x :: xs => (xs.map Locomotief.id).foldl max x.id + 1

/-- `LocRepository.prototype.add` (server.js lines 158-163): construct the
record with the computed id, push it at the end, return its snapshot. -/
def LocRepository.add (repo : LocRepository) (data : LocData) :
    Locomotief × LocRepository :=
  let item := Locomotief.create repo.nextId data
  (item, ⟨repo.items ++ [item]⟩)

/-- The `findIndex`-then-mutate body of `LocRepository.prototype.update`
(server.js lines 171-176): the first record whose id matches is replaced
by its patched value, all other positions are untouched; `(none, items)`
when no record matches. -/
def updateItems (items : List Locomotief) (id : Int) (patch : LocomotiefPatch) :
    Option Locomotief × List Locomotief :=
  match items with
  | [] => (none, [])
  | x :: xs =>
    if x.id = id then
      (some (x.update patch), x.update patch :: xs)
    else
      let r := updateItems xs id patch
      (r.fst, x :: r.snd)

/-- `LocRepository.prototype.update` (server.js lines 171-176). -/
def LocRepository.update (repo : LocRepository) (id : Int)
    (patch : LocomotiefPatch) : Option Locomotief × LocRepository :=
  let r := updateItems repo.items id patch
  (r.fst, ⟨r.snd⟩)

/-- The `findIndex`-then-`splice(idx, 1)` body of
`LocRepository.prototype.remove` (server.js lines 183-188): the first
record whose id matches is excised and returned; `(none, items)` when no
record matches. -/
def removeItems (items : List Locomotief) (id : Int) :
    Option Locomotief × List Locomotief :=
  match items with
  | [] => (none, [])
  | x :: xs =>
    if x.id = id then
      (some x, xs)
    else
      let r := removeItems xs id
      (r.fst, x :: r.snd)

/-- `LocRepository.prototype.remove` (server.js lines 183-188). -/
def LocRepository.remove (repo : LocRepository) (id : Int) :
    Option Locomotief × LocRepository :=
  let r := removeItems repo.items id
  (r.fst, ⟨r.snd⟩)

/-- The `Auth` class configuration (server.js lines 201-206): the read key
and the admin key. -/
structure Auth where
  apiKey : String
  adminKey : String
deriving DecidableEq

/-- JavaScript `String.prototype.split(" ")` on the character list: the
list is cut at every single space character and the (possibly empty)
fragments are kept, so `[]` maps to `[[]]` just as `"".split(" ")` is
`[""]`. -/
def splitSpace (cs : List Char) : List (List Char) :=
  match cs with
  | [] => [[]]
  | c :: rest =>
    let r := splitSpace rest
    if c = ' ' then
      [] :: r
    else
      match r with
      | [] => [[c]]
      | g :: gs => (c :: g) :: gs

/-- `h.split(" ")` for a Lean `String`. -/
def jsSplitSpace (s : String) : List String :=
  (splitSpace s.toList).map (fun g => String.mk g)

/-- `Auth.prototype.token` (server.js lines 214-218): the raw
`Authorization` header (absent modelled as `none`, defaulted to `""` by
`|| ""`) is split on the space character; with exactly two parts the
second is returned, otherwise the raw value. -/
def Auth.token (authorizationHeader : Option String) : String :=
  let h := authorizationHeader.getD ""
  let parts := jsSplitSpace h
  if parts.length = 2 then parts.getD 1 "" else h

/-- The boolean condition of `Auth.prototype.any` (server.js line 229):
`t === this.apiKey || t === this.adminKey`. -/
def Auth.allowAny (a : Auth) (t : String) : Bool :=
  t == a.apiKey || t == a.adminKey

/-- The boolean condition of `Auth.prototype.admin` (server.js line 242):
`t === this.adminKey`. -/
def Auth.allowAdmin (a : Auth) (t : String) : Bool :=
  t == a.adminKey

/-- Outcome of an Express middleware in this model: pass the request on
(`next`) or answer it with a status code (`respond`). -/
inductive AuthResult where
  | next : AuthResult
  | respond : Nat → AuthResult
deriving DecidableEq

/-- `Auth.prototype.any` (server.js lines 227-231): `next()` when the
extracted token equals either key, otherwise status 401. -/
def Auth.any (a : Auth) (hdr : Option String) : AuthResult :=
  if a.allowAny (Auth.token hdr) then AuthResult.next else AuthResult.respond 401

/-- `Auth.prototype.admin` (server.js lines 240-244): `next()` when the
extracted token equals the admin key, otherwise status 403. -/
def Auth.admin (a : Auth) (hdr : Option String) : AuthResult :=
  if a.allowAdmin (Auth.token hdr) then AuthResult.next else AuthResult.respond 403

/-- Splitting a header value at every whitespace character, following the
words of the specification ("exactly two whitespace-separated parts"); to
be compared with `jsSplitSpace`, which is what the code does. -/
def specWhitespaceSplit (s : String) : List String :=
  (s.toList.splitOnP Char.isWhitespace).map (fun g => String.mk g)

/-- The body sent in the test suite's create request, used as concrete
`add` input. -/
def dataNS1300 : LocData :=
  { serie := "NS 1300", type := "Elektrisch", fabrikant := none,
    bouwjaar := none, spoorwijdte := none, tractie := none,
    maxSnelheid := none }

/-- First record of the seed collection (server.js line 272). -/
def locNS1100 : Locomotief :=
  { id := 1, serie := "NS 1100", type := "Elektrisch", fabrikant := "Alsthom",
    bouwjaar := 1950, spoorwijdte := 1435, tractie := "E", maxSnelheid := 130 }

/-- Second record of the seed collection (server.js line 273). -/
def locNS1200 : Locomotief :=
  { id := 2, serie := "NS 1200", type := "Elektrisch",
    fabrikant := "Werkspoor/Heemaf/Baldwin-Westinghouse",
    bouwjaar := 1951, spoorwijdte := 1435, tractie := "E", maxSnelheid := 150 }

/-- A two-record repository drawn from the seed data, used as concrete
state in witnesses. -/
def wRepo : LocRepository :=
  ⟨[locNS1100, locNS1200]⟩

/-- The patch `{tractie: "D"}` of the partial-update property. -/
def patchTractieD : LocomotiefPatch :=
  { id := none, serie := none, type := none, fabrikant := none,
    bouwjaar := none, spoorwijdte := none, tractie := some "D",
    maxSnelheid := none }

/-! ## Helper lemmas -/

/-- The start value of a left `max` fold bounds the fold from below. -/
theorem start_le_foldl_max (b : Int) (l : List Int) : b ≤ l.foldl max b := by
  induction l generalizing b with
  | nil => exact le_refl b
  | cons c t ih => exact le_trans (le_max_left b c) (ih (max b c))

/-- Every member of the list bounds a left `max` fold from below. -/
theorem mem_le_foldl_max (b : Int) (l : List Int) : ∀ a ∈ l, a ≤ l.foldl max b := by
  induction l generalizing b with
  | nil => intro a ha; exact absurd ha (List.not_mem_nil a)
  | cons c t ih =>
    intro a ha
    rcases List.mem_cons.mp ha with h | h
    · subst h
      exact le_trans (le_max_right b a) (start_le_foldl_max _ t)
    · exact ih (max b c) a h

/-- A left `max` fold is attained: it is the start value or a member. -/
theorem foldl_max_attained (b : Int) (l : List Int) :
    l.foldl max b = b ∨ l.foldl max b ∈ l := by
  induction l generalizing b with
  | nil => exact Or.inl rfl
  | cons c t ih =>
    have hfold : (c :: t).foldl max b = t.foldl max (max b c) := rfl
    rcases ih (max b c) with h | h
    · by_cases hbc : b ≤ c
      · refine Or.inr ?_
        rw [hfold, h, max_eq_right hbc]
        exact List.mem_cons_self c t
      · refine Or.inl ?_
        rw [hfold, h, max_eq_left (le_of_not_le hbc)]
    · exact Or.inr (by rw [hfold]; exact List.mem_cons_of_mem c h)

/-- The freshly computed id strictly exceeds every id in the collection. -/
theorem nextId_gt_mem (repo : LocRepository) :
    ∀ x ∈ repo.items, x.id < repo.nextId := by
  intro x hx
  rcases hitems : repo.items with _ | ⟨y, ys⟩
  · rw [hitems] at hx; exact absurd hx (List.not_mem_nil x)
  · rw [hitems] at hx
    have hgoal : repo.nextId = (ys.map Locomotief.id).foldl max y.id + 1 := by
      unfold LocRepository.nextId
      rw [hitems]
    rw [hgoal]
    rcases List.mem_cons.mp hx with h | h
    · subst h
      exact lt_of_le_of_lt (start_le_foldl_max _ _) (lt_add_one _)
    · exact lt_of_le_of_lt
        (mem_le_foldl_max _ _ _ (List.mem_map_of_mem Locomotief.id h))
        (lt_add_one _)

/-- On a nonempty collection the freshly computed id is some member's id
plus one. -/
theorem nextId_attained (repo : LocRepository) (h : repo.items ≠ []) :
    ∃ x ∈ repo.items, repo.nextId = x.id + 1 := by
  rcases hitems : repo.items with _ | ⟨y, ys⟩
  · exact absurd hitems h
  · have hgoal : repo.nextId = (ys.map Locomotief.id).foldl max y.id + 1 := by
      unfold LocRepository.nextId
      rw [hitems]
    rcases foldl_max_attained y.id (ys.map Locomotief.id) with hm | hm
    · exact ⟨y, List.mem_cons_self y ys, by rw [hgoal, hm]⟩
    · rcases List.mem_map.mp hm with ⟨z, hz, hzid⟩
      exact ⟨z, List.mem_cons_of_mem y hz, by rw [hgoal, hzid]⟩

/-- Updating misses the whole list when no stored id matches. -/
theorem updateItems_miss (items : List Locomotief) (i : Int)
    (p : LocomotiefPatch) (h : ∀ x ∈ items, x.id ≠ i) :
    updateItems items i p = (none, items) := by
  induction items with
  | nil => rfl
  | cons x xs ih =>
    have hx : x.id ≠ i := h x (List.mem_cons_self x xs)
    have hxs : ∀ y ∈ xs, y.id ≠ i := fun y hy => h y (List.mem_cons_of_mem x hy)
    simp [updateItems, hx, ih hxs]

/-- Removal misses the whole list when no stored id matches. -/
theorem removeItems_miss (items : List Locomotief) (i : Int)
    (h : ∀ x ∈ items, x.id ≠ i) :
    removeItems items i = (none, items) := by
  induction items with
  | nil => rfl
  | cons x xs ih =>
    have hx : x.id ≠ i := h x (List.mem_cons_self x xs)
    have hxs : ∀ y ∈ xs, y.id ≠ i := fun y hy => h y (List.mem_cons_of_mem x hy)
    simp [removeItems, hx, ih hxs]

/-! ## Claim theorems -/

/-- C1 (counterexample). Starting from the empty repository, `add` assigns
id 1; after removing that record, the next `add` assigns id 1 again, so an
assigned id is reused after an intervening delete and the second id is not
strictly greater than the first. -/
theorem add_reuses_id_after_remove :
    ((LocRepository.mk []).add dataNS1300).fst.id = 1 ∧
    ((((LocRepository.mk []).add dataNS1300).snd.remove 1).snd.add
        dataNS1300).fst.id = 1 ∧
    ¬ (((LocRepository.mk []).add dataNS1300).fst.id <
        ((((LocRepository.mk []).add dataNS1300).snd.remove 1).snd.add
            dataNS1300).fst.id) := by
  refine ⟨rfl, rfl, by decide⟩

/-- C1 (amended). Every call to `add` returns a record whose id is
strictly greater than every id in the collection at the moment of the
call; since `Math.max` only ranges over the live records, ids of records
deleted in the meantime (in particular a deleted maximal id) can be
assigned again. -/
theorem add_id_gt_live (repo : LocRepository) (d : LocData) :
    ∀ x ∈ repo.items, x.id < (repo.add d).fst.id := by
  intro x hx
  exact nextId_gt_mem repo x hx

/-- C1 (witness for the amended theorem): in the two-record seed
repository both live ids are below the id `add` assigns. -/
theorem add_id_gt_live_witness :
    locNS1100.id < (wRepo.add dataNS1300).fst.id :=
  add_id_gt_live wRepo dataNS1300 locNS1100 (by decide)

/-- C2. `add` assigns id 1 on the empty collection and otherwise one more
than an id that is maximal among the stored records; the created record
carries the given `serie` and `type`, the declared defaults for omitted
optional fields, is appended at the end of the collection, and is returned
with its assigned id. -/
theorem add_assigns_max_plus_one_and_defaults (repo : LocRepository) (d : LocData) :
    (repo.items = [] → (repo.add d).fst.id = 1) ∧
    (∀ x ∈ repo.items, x.id < (repo.add d).fst.id) ∧
    (repo.items ≠ [] → ∃ x ∈ repo.items, (repo.add d).fst.id = x.id + 1) ∧
    (repo.add d).fst.serie = d.serie ∧
    (repo.add d).fst.type = d.type ∧
    (d.fabrikant = none → (repo.add d).fst.fabrikant = "") ∧
    (d.bouwjaar = none → (repo.add d).fst.bouwjaar = 0) ∧
    (d.spoorwijdte = none → (repo.add d).fst.spoorwijdte = 1435) ∧
    (d.tractie = none → (repo.add d).fst.tractie = "") ∧
    (d.maxSnelheid = none → (repo.add d).fst.maxSnelheid = 0) ∧
    (repo.add d).snd.items = repo.items ++ [(repo.add d).fst] := by
  refine ⟨?_, ?_, ?_, rfl, rfl, ?_, ?_, ?_, ?_, ?_, rfl⟩
  · intro h
    show repo.nextId = 1
    unfold LocRepository.nextId
    rw [h]
  · exact fun x hx => nextId_gt_mem repo x hx
  · exact fun h => nextId_attained repo h
  · intro h
    show (Locomotief.create repo.nextId d).fabrikant = ""
    simp [Locomotief.create, h]
  · intro h
    show (Locomotief.create repo.nextId d).bouwjaar = 0
    simp [Locomotief.create, h]
  · intro h
    show (Locomotief.create repo.nextId d).spoorwijdte = 1435
    simp [Locomotief.create, h]
  · intro h
    show (Locomotief.create repo.nextId d).tractie = ""
    simp [Locomotief.create, h]
  · intro h
    show (Locomotief.create repo.nextId d).maxSnelheid = 0
    simp [Locomotief.create, h]

/-- C3. `update` applies a patch by field-level presence: every field
present in the patch — even with a falsy value such as `""` or `0` —
overwrites the stored field, every absent field keeps its prior value; in
particular the patch `{tractie: "D"}` sets `tractie` to `"D"` and leaves
`maxSnelheid` (e.g. 130 in the first seed record) unchanged. -/
theorem update_by_presence_not_truthiness (l : Locomotief) (p : LocomotiefPatch) :
    (∀ v, p.serie = some v → (l.update p).serie = v) ∧
    (p.serie = none → (l.update p).serie = l.serie) ∧
    (∀ v, p.type = some v → (l.update p).type = v) ∧
    (p.type = none → (l.update p).type = l.type) ∧
    (∀ v, p.fabrikant = some v → (l.update p).fabrikant = v) ∧
    (p.fabrikant = none → (l.update p).fabrikant = l.fabrikant) ∧
    (∀ v, p.bouwjaar = some v → (l.update p).bouwjaar = v) ∧
    (p.bouwjaar = none → (l.update p).bouwjaar = l.bouwjaar) ∧
    (∀ v, p.spoorwijdte = some v → (l.update p).spoorwijdte = v) ∧
    (p.spoorwijdte = none → (l.update p).spoorwijdte = l.spoorwijdte) ∧
    (∀ v, p.tractie = some v → (l.update p).tractie = v) ∧
    (p.tractie = none → (l.update p).tractie = l.tractie) ∧
    (∀ v, p.maxSnelheid = some v → (l.update p).maxSnelheid = v) ∧
    (p.maxSnelheid = none → (l.update p).maxSnelheid = l.maxSnelheid) ∧
    (l.update patchTractieD).tractie = "D" ∧
    (l.update patchTractieD).maxSnelheid = l.maxSnelheid ∧
    (wRepo.update 1 patchTractieD).fst.map Locomotief.tractie = some "D" ∧
    (wRepo.update 1 patchTractieD).fst.map Locomotief.maxSnelheid = some 130 := by
  refine ⟨?_, ?_, ?_, ?_, ?_, ?_, ?_, ?_, ?_, ?_, ?_, ?_, ?_, ?_,
    rfl, rfl, by decide, by decide⟩
  all_goals
    first
    | (intro v h; simp [Locomotief.update, h])
    | (intro h; simp [Locomotief.update, h])

/-- C6. When no stored record carries the requested id, `update` and
`remove` both return the absent sentinel and leave the repository
entirely unchanged — same records in the same order; in particular
`update` never creates a record. -/
theorem update_remove_absent_noop (repo : LocRepository) (i : Int)
    (p : LocomotiefPatch) (h : ∀ x ∈ repo.items, x.id ≠ i) :
    repo.update i p = (none, repo) ∧ repo.remove i = (none, repo) := by
  constructor
  · show (let r := updateItems repo.items i p; (r.fst, (⟨r.snd⟩ : LocRepository)))
      = (none, repo)
    rw [updateItems_miss repo.items i p h]
  · show (let r := removeItems repo.items i; (r.fst, (⟨r.snd⟩ : LocRepository)))
      = (none, repo)
    rw [removeItems_miss repo.items i h]

/-- C6 (witness): no seed record has id 999, and updating or removing id
999 on the two-record seed repository returns the absent sentinel with
the repository unchanged. -/
theorem update_remove_absent_noop_witness :
    wRepo.update 999 patchTractieD = (none, wRepo) ∧
    wRepo.remove 999 = (none, wRepo) :=
  update_remove_absent_noop wRepo 999 patchTractieD (by decide)

/-- Update hits exactly the first id match: a match-free prefix is kept
verbatim, the first matching record is replaced by its patched value, and
the whole suffix after it is kept verbatim. -/
theorem updateItems_found (pre : List Locomotief) (x : Locomotief)
    (post : List Locomotief) (i : Int) (p : LocomotiefPatch)
    (hpre : ∀ y ∈ pre, y.id ≠ i) (hx : x.id = i) :
    updateItems (pre ++ x :: post) i p
      = (some (x.update p), pre ++ x.update p :: post) := by
  induction pre with
  | nil => simp [updateItems, hx]
  | cons y ys ih =>
    have hy : y.id ≠ i := hpre y (List.mem_cons_self y ys)
    have hys : ∀ z ∈ ys, z.id ≠ i := fun z hz => hpre z (List.mem_cons_of_mem y hz)
    simp [updateItems, hy, ih hys]

/-- C7. Repository `update` never changes any record's id (even when the
patch carries an `id` field — it is not among the patched fields), and it
has no effect beyond the first matching record: the id sequence (hence
the order) is preserved, a collection without a match is returned
entirely unchanged, and when the collection decomposes as a match-free
prefix, the first record with the requested id and a suffix, the result
is literally that prefix, the patched record and that suffix — every
other stored record is untouched. -/
theorem update_preserves_ids_and_frame (items : List Locomotief) (i : Int)
    (p : LocomotiefPatch) :
    (∀ l : Locomotief, (l.update p).id = l.id) ∧
    (updateItems items i p).snd.map Locomotief.id = items.map Locomotief.id ∧
    ((∀ x ∈ items, x.id ≠ i) → (updateItems items i p).snd = items) ∧
    (∀ pre x post, items = pre ++ x :: post → (∀ y ∈ pre, y.id ≠ i) → x.id = i →
      (updateItems items i p).fst = some (x.update p) ∧
      (updateItems items i p).snd = pre ++ x.update p :: post) := by
  refine ⟨fun l => rfl, ?_, ?_, ?_⟩
  · induction items with
    | nil => rfl
    | cons x xs ih =>
      by_cases hx : x.id = i
      · simp [updateItems, hx, Locomotief.update]
      · simp [updateItems, hx, ih]
  · intro h
    rw [updateItems_miss items i p h]
  · intro pre x post hdec hpre hx
    subst hdec
    rw [updateItems_found pre x post i p hpre hx]
    exact ⟨rfl, rfl⟩

/-- Removal of the first id match from a duplicate-free list: the removed
record carries the requested id, was a member, and no match is left. -/
theorem removeItems_found_spec (items : List Locomotief) (i : Int)
    (r : Locomotief) (rest : List Locomotief)
    (hp : items.Pairwise (fun a b => a.id ≠ b.id))
    (h : removeItems items i = (some r, rest)) :
    rest.find? (fun x => x.id == i) = none ∧ r.id = i ∧ r ∈ items := by
  induction items generalizing rest with
  | nil => simp [removeItems] at h
  | cons x xs ih =>
    rw [List.pairwise_cons] at hp
    by_cases hx : x.id = i
    · simp only [removeItems, if_pos hx, Prod.mk.injEq, Option.some.injEq] at h
      obtain ⟨h1, h2⟩ := h
      subst h1
      subst h2
      refine ⟨?_, hx, List.mem_cons_self x xs⟩
      apply List.find?_eq_none.mpr
      intro y hy
      simp only [beq_iff_eq]
      exact fun hyi => hp.1 y hy (hx.trans hyi.symm)
    · rcases hrec : removeItems xs i with ⟨o, rest'⟩
      simp only [removeItems, if_neg hx, hrec, Prod.mk.injEq] at h
      obtain ⟨h1, h2⟩ := h
      subst h1
      subst h2
      obtain ⟨hfind, hid, hmem⟩ := ih rest' hp.2 hrec
      refine ⟨?_, hid, List.mem_cons_of_mem x hmem⟩
      apply List.find?_eq_none.mpr
      intro y hy
      rcases List.mem_cons.mp hy with rfl | hy'
      · simp [hx]
      · exact List.find?_eq_none.mp hfind y hy'

/-- C9. In a repository whose records have pairwise-distinct ids, a
successful `remove(id)` returns a record that was stored with that very
id, and `get(id)` on the resulting state returns the absent sentinel. -/
theorem remove_then_get_absent (repo : LocRepository) (i : Int)
    (r : Locomotief) (repo' : LocRepository)
    (hp : repo.items.Pairwise (fun a b => a.id ≠ b.id))
    (h : repo.remove i = (some r, repo')) :
    repo'.get i = none ∧ r.id = i ∧ r ∈ repo.items := by
  rcases hrec : removeItems repo.items i with ⟨o, rest⟩
  have h' : (o, (⟨rest⟩ : LocRepository)) = (some r, repo') := by
    rw [← h]
    show (o, (⟨rest⟩ : LocRepository))
      = (let q := removeItems repo.items i; (q.fst, (⟨q.snd⟩ : LocRepository)))
    rw [hrec]
  obtain ⟨h1, h2⟩ := Prod.mk.injEq .. ▸ h'
  subst h1
  subst h2
  obtain ⟨hfind, hid, hmem⟩ := removeItems_found_spec repo.items i r rest hp hrec
  exact ⟨hfind, hid, hmem⟩

/-- C9 (witness): removing id 1 from the two-record seed repository
succeeds, returns the stored record with id 1, and a subsequent `get 1`
is absent. -/
theorem remove_then_get_absent_witness :
    (LocRepository.mk [locNS1200]).get 1 = none ∧ locNS1100.id = 1 ∧
    locNS1100 ∈ wRepo.items :=
  remove_then_get_absent wRepo 1 locNS1100 (LocRepository.mk [locNS1200])
    (by decide) (by decide)

/-- A space-free character list is returned whole by `splitSpace`. -/
theorem splitSpace_no_space (cs : List Char) (h : ∀ c ∈ cs, c ≠ ' ') :
    splitSpace cs = [cs] := by
  induction cs with
  | nil => rfl
  | cons c t ih =>
    have hc : c ≠ ' ' := h c (List.mem_cons_self c t)
    have ht : ∀ x ∈ t, x ≠ ' ' := fun x hx => h x (List.mem_cons_of_mem c hx)
    simp [splitSpace, hc, ih ht]

/-- Splitting cuts exactly at a space following a space-free prefix. -/
theorem splitSpace_append_space (a b : List Char) (ha : ∀ c ∈ a, c ≠ ' ') :
    splitSpace (a ++ ' ' :: b) = a :: splitSpace b := by
  induction a with
  | nil => simp [splitSpace]
  | cons c t ih =>
    have hc : c ≠ ' ' := ha c (List.mem_cons_self c t)
    have ht : ∀ x ∈ t, x ≠ ' ' := fun x hx => ha x (List.mem_cons_of_mem c hx)
    rw [List.cons_append]
    show (let r := splitSpace (t ++ ' ' :: b);
      if c = ' ' then [] :: r
      else match r with | [] => [[c]] | g :: gs => (c :: g) :: gs)
      = (c :: t) :: splitSpace b
    rw [ih ht]
    simp [hc]

/-- C5 (counterexample). The header value made of `"Bearer"`, a tab and
`"xyz"` consists of exactly two whitespace-separated parts whose second
part is `"xyz"`, yet `token` returns the raw value unchanged rather than
the second part: the code splits on the space character only. -/
theorem token_tab_counterexample :
    (specWhitespaceSplit "Bearer\txyz").length = 2 ∧
    (specWhitespaceSplit "Bearer\txyz").getD 1 "" = "xyz" ∧
    Auth.token (some "Bearer\txyz") = "Bearer\txyz" ∧
    Auth.token (some "Bearer\txyz") ≠ "xyz" := by
  refine ⟨by decide, by decide, rfl, by decide⟩

/-- C5 (amended). `token` splits the raw header value on the single space
character, not on arbitrary whitespace: when the value is two space-free
parts joined by one space it returns the second part; in every other case
— the space-character split yielding any number of parts other than two,
so also values with two or more spaces such as `"a b c"` and `"a  b"`, or
a space-free value — the raw value is returned unchanged; a missing
header yields the empty token, and the three concrete examples of the
claim hold. -/
theorem token_space_extraction (hdr : Option String) :
    (∀ p1 p2 : String, (∀ c ∈ p1.toList, c ≠ ' ') → (∀ c ∈ p2.toList, c ≠ ' ') →
      hdr.getD "" = p1 ++ " " ++ p2 → Auth.token hdr = p2) ∧
    ((jsSplitSpace (hdr.getD "")).length = 2 →
      Auth.token hdr = (jsSplitSpace (hdr.getD "")).getD 1 "") ∧
    ((jsSplitSpace (hdr.getD "")).length ≠ 2 → Auth.token hdr = hdr.getD "") ∧
    ((∀ c ∈ (hdr.getD "").toList, c ≠ ' ') → Auth.token hdr = hdr.getD "") ∧
    Auth.token none = "" ∧
    Auth.token (some "Bearer xyz") = "xyz" ∧
    Auth.token (some "xyz") = "xyz" ∧
    Auth.token (some "") = "" ∧
    Auth.token (some "a b c") = "a b c" ∧
    Auth.token (some "a  b") = "a  b" := by
  refine ⟨?_, ?_, ?_, ?_, rfl, rfl, rfl, rfl, rfl, rfl⟩
  · intro p1 p2 h1 h2 hsum
    have htl : (hdr.getD "").toList = p1.toList ++ ' ' :: p2.toList := by
      rw [hsum]
      show (p1 ++ " " ++ p2).data = p1.data ++ ' ' :: p2.data
      simp [String.data_append]
    have hsplit : jsSplitSpace (hdr.getD "") = [p1, p2] := by
      unfold jsSplitSpace
      rw [htl, splitSpace_append_space p1.toList p2.toList h1,
        splitSpace_no_space p2.toList h2]
      show [String.mk p1.data, String.mk p2.data] = [p1, p2]
      rfl
    simp [Auth.token, hsplit]
  · intro h
    simp [Auth.token, h]
  · intro h
    simp [Auth.token, h]
  · intro h
    have hsplit : jsSplitSpace (hdr.getD "") = [String.mk (hdr.getD "").toList] := by
      unfold jsSplitSpace
      rw [splitSpace_no_space (hdr.getD "").toList h]
      rfl
    simp [Auth.token, hsplit]

/-- C4 (counterexample). With the default keys, the token extracted from
`"Bearer wrong"` matches neither secret, yet the admin middleware answers
status 403, not 401. -/
theorem admin_invalid_token_answers_403 :
    Auth.token (some "Bearer wrong") ≠ (Auth.mk "demo-read" "demo-admin").apiKey ∧
    Auth.token (some "Bearer wrong") ≠ (Auth.mk "demo-read" "demo-admin").adminKey ∧
    (Auth.mk "demo-read" "demo-admin").admin (some "Bearer wrong")
      = AuthResult.respond 403 ∧
    (Auth.mk "demo-read" "demo-admin").admin (some "Bearer wrong")
      ≠ AuthResult.respond 401 := by
  refine ⟨by decide, by decide, rfl, by decide⟩

/-- C4 (amended). The admin middleware answers 403 for every failing
admin-tier request, whether the token is the reader secret, invalid or
missing; 401 arises only from the any-tier middleware when the token
matches neither secret. -/
theorem admin_deny_403_any_deny_401 (a : Auth) (hdr : Option String) :
    (Auth.token hdr ≠ a.adminKey →
      a.admin hdr = AuthResult.respond 403) ∧
    (Auth.token hdr ≠ a.apiKey → Auth.token hdr ≠ a.adminKey →
      a.any hdr = AuthResult.respond 401) := by
  constructor
  · intro h
    simp [Auth.admin, Auth.allowAdmin, h]
  · intro h1 h2
    simp [Auth.any, Auth.allowAny, h1, h2]

/-- C8 (counterexample). When the two configured secrets are the same
string, `allowAdmin` accepts the read secret, contradicting the claimed
truth table for arbitrary secret pairs. -/
theorem allowAdmin_accepts_read_secret_when_equal :
    (Auth.mk "k" "k").apiKey = "k" ∧
    (Auth.mk "k" "k").allowAdmin "k" = true ∧
    (Auth.mk "k" "k").allowAdmin ((Auth.mk "k" "k").apiKey) ≠ false := by
  refine ⟨rfl, rfl, by decide⟩

/-- C8 (amended). `allowAny` accepts exactly the two configured secrets
and `allowAdmin` exactly the admin secret, for every configuration; the
claimed truth-table rows `allowAdmin(readSecret) = false` and
`allowAny("") = false` hold provided the secrets are distinct,
respectively nonempty. -/
theorem auth_gate_truth_table (a : Auth) :
    (∀ t, a.allowAny t = true ↔ (t = a.apiKey ∨ t = a.adminKey)) ∧
    (∀ t, a.allowAdmin t = true ↔ t = a.adminKey) ∧
    a.allowAny a.apiKey = true ∧
    a.allowAny a.adminKey = true ∧
    a.allowAdmin a.adminKey = true ∧
    (a.apiKey ≠ a.adminKey → a.allowAdmin a.apiKey = false) ∧
    (a.apiKey ≠ "" → a.adminKey ≠ "" → a.allowAny "" = false) := by
  refine ⟨?_, ?_, ?_, ?_, ?_, ?_, ?_⟩
  · intro t
    simp [Auth.allowAny]
  · intro t
    simp [Auth.allowAdmin]
  · simp [Auth.allowAny]
  · simp [Auth.allowAny]
  · simp [Auth.allowAdmin]
  · intro h
    simp [Auth.allowAdmin, h]
  · intro h1 h2
    simp [Auth.allowAny, Ne.symm h1, Ne.symm h2]

/-- C10. A request without an `Authorization` header gets the empty
token, and the gates compare by plain string equality; hence an empty
configured read key makes the any-tier gate pass a credential-less
request, and an empty configured admin key does the same for the
admin-tier gate. -/
theorem empty_secret_grants_headerless (k : String) :
    Auth.token none = "" ∧
    (Auth.mk "" k).allowAny (Auth.token none) = true ∧
    (Auth.mk "" k).any none = AuthResult.next ∧
    (Auth.mk k "").allowAdmin (Auth.token none) = true ∧
    (Auth.mk k "").admin none = AuthResult.next := by
  refine ⟨rfl, ?_, ?_, rfl, rfl⟩
  · simp [Auth.allowAny, Auth.token, jsSplitSpace, splitSpace]
  · simp [Auth.any, Auth.allowAny, Auth.token, jsSplitSpace, splitSpace]
